import Mathlib

/-!
Shallow embedding of the routing and state-store core of
electron-chrome-extensions (src/browser/router.ts, src/browser/store.ts,
src/browser/api/tabs.ts, src/browser/api/browser-action.ts).

Electron objects are identified by their numeric ids: a WebContents or a
BrowserWindow becomes a `Nat`, a Session becomes a `Nat` id plus its loaded
extension list.  Ambient runtime facts (which ids are destroyed, which
webContents ids are live, the BrowserWindow.fromWebContents fallback) are
passed as explicit function parameters.  JavaScript Maps keyed by insertion
order become association lists; JavaScript Sets become duplicate-free lists
in insertion order.
-/

namespace CrxRouter

/-- An event listener entry of the router registry: router.ts `EventListener`
(`host: Electron.WebContents; extensionId: string`), the host given by id. -/
structure EventListener where
  host : Nat
  extensionId : String
  deriving DecidableEq

/-- router.ts `eventListenerEquals`: equality on host identity and extension id. -/
def eventListenerEquals (eventListener other : EventListener) : Bool :=
  other.host == eventListener.host && other.extensionId == eventListener.extensionId

/-- The listener registry `Map<EventName, EventListener[]>` as an association
list in key insertion order. -/
abbrev ListenerRegistry := List (String × List EventListener)

/-- `Map.get`: the value list of the first (unique) matching key. -/
def regGet (reg : ListenerRegistry) (eventName : String) : Option (List EventListener) :=
  (reg.find? (fun p => p.1 == eventName)).map Prod.snd

/-- `Map.set`: replace the value of an existing key in place, else append
the new key at the end (JS Maps keep insertion order). -/
def regSet (reg : ListenerRegistry) (eventName : String) (ls : List EventListener) :
    ListenerRegistry :=
  if reg.any (fun p => p.1 == eventName) then
    reg.map (fun p => if p.1 == eventName then (p.1, ls) else p)
  else
    reg ++ [(eventName, ls)]

/-- `Map.delete`: drop the key. -/
def regDelete (reg : ListenerRegistry) (eventName : String) : ListenerRegistry :=
  reg.filter (fun p => p.1 != eventName)

/-- Well-formedness of the association-list model of a JS Map: keys are
unique.  Every registry reachable in the program satisfies this. -/
abbrev regWF (reg : ListenerRegistry) : Prop :=
  (reg.map Prod.fst).Nodup

/-- The error taxonomy of the router and store, named as in the spec. -/
inductive RouterError where
  | unknownVerb
  | crossSessionNotAllowed
  | unknownExtensionContext
  | unknownExtension
  deriving DecidableEq

/-- router.ts `ExtensionRouter.addListener`: throws `unknownExtension` when the
extension is not loaded in the session (`session.getExtension` fails), creates
the key with an empty list when absent, then pushes the listener unless an
equal (host, extensionId) entry is already present. -/
def addListener (sessionExtensions : List String) (reg : ListenerRegistry)
    (listener : EventListener) (extensionId : String) (eventName : String) :
    Except RouterError ListenerRegistry :=
  if !sessionExtensions.contains extensionId then
    .error .unknownExtension
  else
    let reg1 := if (regGet reg eventName).isNone then regSet reg eventName [] else reg
    let eventListeners := (regGet reg1 eventName).getD []
    match eventListeners.find? (eventListenerEquals listener) with
    | some _ => .ok reg1
    | none => .ok (regSet reg1 eventName (eventListeners ++ [listener]))

/-- router.ts `ExtensionRouter.removeListener`: missing event key is a logged
no-op; otherwise splice out the first entry equal to the listener and delete
the key when its list becomes empty. -/
def removeListener (reg : ListenerRegistry) (listener : EventListener)
    (_extensionId : String) (eventName : String) : ListenerRegistry :=
  match regGet reg eventName with
  | none => reg
  | some eventListeners =>
    let eventListeners1 :=
      match eventListeners.findIdx? (eventListenerEquals listener) with
      | some index => eventListeners.eraseIdx index
      | none => eventListeners
    if eventListeners1.isEmpty then regDelete reg eventName
    else regSet reg eventName eventListeners1

/-- router.ts `ExtensionRouter.filterListeners`: filter every event list by
the predicate, keeping keys with a nonempty remainder and deleting the rest. -/
def filterListeners (predicate : EventListener → Bool) (reg : ListenerRegistry) :
    ListenerRegistry :=
  reg.filterMap (fun p =>
    let filteredListeners := p.2.filter predicate
    if filteredListeners.isEmpty then none else some (p.1, filteredListeners))

/-- The `host.once destroyed` cleanup armed by `observeListenerHost`: remove
every listener entry whose host is the terminated one. -/
def onHostDestroyed (host : Nat) (reg : ListenerRegistry) : ListenerRegistry :=
  filterListeners (fun listener => listener.host != host) reg

/-- Membership of a (host, extensionId) pair under one event name. -/
def registryHasPair (reg : ListenerRegistry) (eventName : String)
    (listener : EventListener) : Bool :=
  ((regGet reg eventName).getD []).any (eventListenerEquals listener)

/-- A loaded extension, identified by its id string. -/
structure Extension where
  id : String
  deriving DecidableEq

/-- An Electron session: its object identity and the extensions loaded in it. -/
structure Session where
  sessionId : Nat
  extensions : List Extension

/-- `session.getExtension`: the loaded extension with the given id, if any. -/
def Session.getExtension (s : Session) (extensionId : String) : Option Extension :=
  s.extensions.find? (fun e => e.id == extensionId)

/-- The sender of an IPC message (`event.sender`): a WebContents id and the
session it belongs to. -/
structure Sender where
  senderId : Nat
  session : Session

/-- router.ts `ExtensionEvent`: the context object handed to a handler
callback.  The extension field is `extension!` in the source, so it may be
absent when the handler does not require an extension context. -/
structure ExtEvent where
  sender : Sender
  extension : Option Extension

/-- router.ts `Handler`: callback plus its authorization policy. -/
structure Handler (α ρ : Type) where
  callback : ExtEvent → List α → ρ
  extensionContext : Bool
  allowRemote : Bool

/-- router.ts `HandlerMap` as an association list by handler name. -/
abbrev HandlerMap (α ρ : Type) := List (String × Handler α ρ)

/-- router.ts `ExtensionRouter.getHandler`: throws (here: `unknownVerb`) when
no handler is registered under the name. -/
def getHandler {α ρ : Type} (handlers : HandlerMap α ρ) (handlerName : String) :
    Except RouterError (Handler α ρ) :=
  match handlers.find? (fun p => p.1 == handlerName) with
  | none => .error .unknownVerb
  | some p => .ok p.2

/-- router.ts `ExtensionRouter.onExtensionMessage`: look up the handler, then
reject a cross-session caller unless the policy allows it, then resolve the
extension in the caller session and reject when the handler requires an
extension context without one, else invoke the callback. -/
def onExtensionMessage {α ρ : Type} (handlers : HandlerMap α ρ)
    (routerSessionId : Nat) (sender : Sender) (extensionId : Option String)
    (handlerName : String) (args : List α) : Except RouterError ρ := do
  let handler ← getHandler handlers handlerName
  if sender.session.sessionId != routerSessionId && !handler.allowRemote then
    throw .crossSessionNotAllowed
  let extension := extensionId.bind sender.session.getExtension
  if extension.isNone && handler.extensionContext then
    throw .unknownExtensionContext
  return handler.callback { sender := sender, extension := extension } args

/-- One call of the listener API on a fixed (host, extensionId, eventName)
triple.  An add that throws (extension not loaded) leaves the registry
unchanged, since the source throws before mutating. -/
inductive ListenerOp where
  | add
  | remove
  deriving DecidableEq

/-- Apply one `addListener` or `removeListener` call for the fixed triple. -/
def applyListenerOp (sessionExtensions : List String) (listener : EventListener)
    (extensionId eventName : String) (reg : ListenerRegistry) (op : ListenerOp) :
    ListenerRegistry :=
  match op with
  | .add =>
    match addListener sessionExtensions reg listener extensionId eventName with
    | .ok reg1 => reg1
    | .error _ => reg
  | .remove => removeListener reg listener extensionId eventName

/-- Apply a whole sequence of listener calls for the fixed triple. -/
def applyListenerOps (sessionExtensions : List String) (listener : EventListener)
    (extensionId eventName : String) (reg : ListenerRegistry) (ops : List ListenerOp) :
    ListenerRegistry :=
  ops.foldl (applyListenerOp sessionExtensions listener extensionId eventName) reg

/-- Whether a listener passes the optional extensionId filter of sendEvent. -/
def listenerMatches (extensionId : Option String) (l : EventListener) : Bool :=
  match extensionId with
  | none => true
  | some eid => l.extensionId == eid

/-- router.ts `ExtensionRouter.sendEvent`, run without interference: get the
listener list of the event, filter it by extensionId when one is given,
return silently when absent or empty, else deliver to every listed host
whose WebContents is not destroyed, in list order.  The value is the list of
hosts delivered to, in delivery order. -/
def sendEvent (reg : ListenerRegistry) (destroyed : Nat → Bool)
    (extensionId : Option String) (eventName : String) : List Nat :=
  let eventListeners : Option (List EventListener) := regGet reg eventName
  let eventListeners1 : Option (List EventListener) :=
    match extensionId with
    | some eid =>
      eventListeners.map (fun ls : List EventListener =>
        ls.filter (fun el => el.extensionId == eid))
    | none => eventListeners
  match eventListeners1 with
  | none => []
  | some ls =>
    if ls.isEmpty then []
    else (ls.filter (fun l => !destroyed l.host)).map (fun l => l.host)

/-- A registry mutation for the event under fan-out, as it acts on the live
listener array: addListener pushes when the pair is absent, removeListener
splices out the first matching entry. -/
inductive RegMutation where
  | addL (listener : EventListener)
  | removeL (listener : EventListener)

/-- The in-place effect of the mutation on the listener array. -/
def applyArrayMutation (m : RegMutation) (arr : List EventListener) :
    List EventListener :=
  match m with
  | .addL l => if arr.any (eventListenerEquals l) then arr else arr ++ [l]
  | .removeL l =>
    match arr.findIdx? (eventListenerEquals l) with
    | some i => arr.eraseIdx i
    | none => arr

/-- The for..of loop of sendEvent over the live listener array, following
the JS array iterator: read position i while i is below the current length.
The mutation m is applied to the array during the body of iteration k, after
that element was read, modelling an addListener or removeListener call for
the same event interleaved with the fan-out.  Fuel bounds the recursion; the
mutation adds at most one element, so initial length + 2 is enough. -/
def forOfHostsAux (destroyed : Nat → Bool) (k : Nat) (m : RegMutation) :
    Nat → List EventListener → Nat → List Nat
  | 0, _, _ => []
  | fuel + 1, arr, i =>
    if h : i < arr.length then
      let el := arr.get ⟨i, h⟩
      let tail := forOfHostsAux destroyed k m fuel
        (if i == k then applyArrayMutation m arr else arr) (i + 1)
      if destroyed el.host then tail else el.host :: tail
    else []

/-- sendEvent during whose fan-out one registry mutation for the same event
name occurs at iteration k.  When an extensionId is given, the loop runs
over the array freshly allocated by the filter call, so a mutation of the
registry array never reaches it; when none is given, the source binds the
registry array itself and the loop reads it live. -/
def sendEventWithInterleave (reg : ListenerRegistry) (destroyed : Nat → Bool)
    (extensionId : Option String) (eventName : String) (k : Nat) (m : RegMutation) :
    List Nat :=
  match extensionId with
  | some _ => sendEvent reg destroyed extensionId eventName
  | none =>
    match regGet reg eventName with
    | none => []
    | some arr =>
      if arr.isEmpty then []
      else forOfHostsAux destroyed k m (arr.length + 2) arr 0

end CrxRouter

namespace CrxTabs

/-- The `mutedInfo: { muted: tab.audioMuted }` object of a tab detail
snapshot.  `ref` is the identity of the allocation: createTabDetails builds
a new object literal on every call, so `ref` is fresh each time, and the JS
strict inequality used in the diff compares only `ref`. -/
structure MutedInfo where
  ref : Nat
  muted : Bool
  deriving DecidableEq

/-- The owning BrowserWindow of a tab, as createTabDetails reads it: its id
and its current size. -/
structure WinState where
  id : Nat
  width : Nat
  height : Nat
  deriving DecidableEq

/-- The observable state of a tab WebContents that createTabDetails reads
(`isCurrentlyAudible`, `audioMuted`, `isLoading`, `favicon`, `getTitle`,
`getURL`). -/
structure TabState where
  id : Nat
  audible : Bool
  audioMuted : Bool
  loading : Bool
  favicon : Option String
  title : String
  url : String
  deriving DecidableEq

/-- tabs.ts `chrome.tabs.Tab` detail snapshot as createTabDetails fills it.
Fields the source sets to constants (autoDiscardable, discarded, pinned,
highlighted, incognito, selected, index) are kept where watched by the
diff. -/
structure TabDetails where
  active : Bool
  audible : Bool
  autoDiscardable : Bool
  discarded : Bool
  favIconUrl : Option String
  height : Nat
  id : Nat
  mutedInfo : MutedInfo
  pinned : Bool
  status : String
  title : String
  url : String
  width : Nat
  windowId : Int
  deriving DecidableEq

/-- tabs.ts `TabsAPI.createTabDetails`: build a fresh snapshot from the tab
state.  The store lookups (active tab of the owning window, the owning
window when not destroyed) are passed in as parameters; `freshRef` is the
identity of the newly allocated mutedInfo object, distinct from every
earlier allocation.  The optional `assignTabDetails` adapter hook is not
configured.  The caller also stores the result into the details cache. -/
def createTabDetails (tab : TabState) (activeTabId : Option Nat)
    (win : Option WinState) (freshRef : Nat) : TabDetails :=
  { active := activeTabId == some tab.id
    audible := tab.audible
    autoDiscardable := true
    discarded := false
    favIconUrl := tab.favicon.bind (fun s => if s.isEmpty then none else some s)
    height := (win.map WinState.height).getD 0
    id := tab.id
    mutedInfo := { ref := freshRef, muted := tab.audioMuted }
    pinned := false
    status := if tab.loading then "loading" else "complete"
    title := tab.title
    url := tab.url
    width := (win.map WinState.width).getD 0
    windowId := match win with | some w => (w.id : Int) | none => -1 }

/-- tabs.ts `chrome.tabs.TabChangeInfo`: the delta of watched fields, a key
present exactly when the JS strict inequality saw a change. -/
structure TabChangeInfo where
  status : Option String
  url : Option String
  pinned : Option Bool
  audible : Option Bool
  discarded : Option Bool
  autoDiscardable : Option Bool
  mutedInfo : Option MutedInfo
  favIconUrl : Option (Option String)
  title : Option String
  deriving DecidableEq

/-- The per-property strict-inequality loop of onUpdated, producing the
changeInfo delta.  Primitive fields compare by value; mutedInfo is an
object, so the comparison is reference identity. -/
def tabChangeInfo (prev details : TabDetails) : TabChangeInfo :=
  { status := if details.status != prev.status then some details.status else none
    url := if details.url != prev.url then some details.url else none
    pinned := if details.pinned != prev.pinned then some details.pinned else none
    audible := if details.audible != prev.audible then some details.audible else none
    discarded := if details.discarded != prev.discarded then some details.discarded else none
    autoDiscardable := if details.autoDiscardable != prev.autoDiscardable then
      some details.autoDiscardable else none
    mutedInfo := if details.mutedInfo.ref != prev.mutedInfo.ref then
      some details.mutedInfo else none
    favIconUrl := if details.favIconUrl != prev.favIconUrl then
      some details.favIconUrl else none
    title := if details.title != prev.title then some details.title else none }

/-- The `didUpdate` flag of onUpdated: whether any watched property compared
unequal under the JS strict inequality. -/
def tabDidUpdate (prev details : TabDetails) : Bool :=
  details.status != prev.status || details.url != prev.url ||
  details.pinned != prev.pinned || details.audible != prev.audible ||
  details.discarded != prev.discarded ||
  details.autoDiscardable != prev.autoDiscardable ||
  details.mutedInfo.ref != prev.mutedInfo.ref ||
  details.favIconUrl != prev.favIconUrl || details.title != prev.title

/-- The `tabDetailsCache` map, keyed by tab id. -/
abbrev TabDetailsCache := List (Nat × TabDetails)

/-- `Map.get` on the details cache. -/
def cacheGet (cache : TabDetailsCache) (id : Nat) : Option TabDetails :=
  (cache.find? (fun p => p.1 == id)).map Prod.snd

/-- `Map.set` on the details cache. -/
def cacheSet (cache : TabDetailsCache) (id : Nat) (d : TabDetails) : TabDetailsCache :=
  if cache.any (fun p => p.1 == id) then
    cache.map (fun p => if p.1 == id then (p.1, d) else p)
  else
    cache ++ [(id, d)]

/-- tabs.ts `TabsAPI.onUpdated`: with no cached snapshot it returns without
an event; else it recomputes a fresh snapshot (also stored into the cache),
runs the strict-inequality diff over the watched properties, and broadcasts
(changeInfo, details) only when some property compared unequal.  The result
is the broadcast payload, if any, and the updated cache. -/
def onUpdated (cache : TabDetailsCache) (tab : TabState) (activeTabId : Option Nat)
    (win : Option WinState) (freshRef : Nat) :
    Option (TabChangeInfo × TabDetails) × TabDetailsCache :=
  match cacheGet cache tab.id with
  | none => (none, cache)
  | some prevDetails =>
    let details := createTabDetails tab activeTabId win freshRef
    let cache1 := cacheSet cache tab.id details
    if tabDidUpdate prevDetails details then
      (some (tabChangeInfo prevDetails details, details), cache1)
    else
      (none, cache1)

/-- A concrete tab used to exercise onUpdated. -/
def tabC4 : TabState :=
  { id := 1, audible := false, audioMuted := false, loading := false,
    favicon := none, title := "t", url := "u" }

end CrxTabs

namespace CrxBrowserAction

/-- The coalescing state of browser-action.ts `BrowserActionAPI.onUpdate`:
the `queuedUpdate` flag, the number of microtask callbacks currently queued,
the observer set (WebContents ids in insertion order), and the broadcasts
delivered so far (each the recipient list of one flush). -/
structure ActionUpdateState where
  queuedUpdate : Bool
  scheduledFlushes : Nat
  observers : List Nat
  broadcasts : List (List Nat)
  deriving DecidableEq

/-- browser-action.ts `BrowserActionAPI.onUpdate`: return early when a flush
is already queued, else set the flag and queue one microtask. -/
def onUpdate (s : ActionUpdateState) : ActionUpdateState :=
  if s.queuedUpdate then s
  else { s with queuedUpdate := true, scheduledFlushes := s.scheduledFlushes + 1 }

/-- The queued microtask body: clear the flag and send one
`browserAction.update` message to every observer that is not destroyed. -/
def runQueuedFlush (destroyed : Nat → Bool) (s : ActionUpdateState) :
    ActionUpdateState :=
  { s with queuedUpdate := false,
           scheduledFlushes := s.scheduledFlushes - 1,
           broadcasts := s.broadcasts ++ [s.observers.filter (fun o => !destroyed o)] }

end CrxBrowserAction

namespace CrxStore

/-- Store lifecycle events emitted through the EventEmitter. -/
inductive StoreEvent where
  | windowAdded (windowId : Nat)
  | tabAdded (tabId : Nat)
  | tabRemoved (tabId : Nat)
  | activeTabChanged (tabId : Nat) (windowId : Nat)
  deriving DecidableEq

/-- The store error taxonomy, named as in the spec. -/
inductive StoreError where
  | noParentWindow
  | notImplemented
  | invalidAdapterResult
  deriving DecidableEq

/-- A JS value as far as the store inspects adapter results: undefined, a
number, or an object carrying a numeric id (a WebContents or a
BrowserWindow).  Nested arrays, which typeof also reports as object, are
left out of the value universe; the createTab result distinguishes array
from non-array below. -/
inductive JSVal where
  | undef
  | num (n : Nat)
  | obj (id : Nat)
  deriving DecidableEq

/-- The JS test `typeof v === 'object'` over this value universe. -/
def JSVal.isObject : JSVal → Bool
  | .obj _ => true
  | _ => false

/-- The numeric id field of the value, when it is an object. -/
def JSVal.idField : JSVal → Option Nat
  | .obj i => some i
  | _ => none

/-- The return value of the createTab platform adapter: a non-array value
or an array of elements. -/
inductive AdapterTabReturn where
  | value (v : JSVal)
  | tuple (elems : List JSVal)
  deriving DecidableEq

/-- chrome.tabs.CreateProperties as far as the store reads it. -/
structure CreateProperties where
  url : Option String
  windowId : Option Nat
  deriving DecidableEq

/-- chrome.windows.CreateData as far as the store forwards it. -/
structure CreateData where
  url : Option String
  deriving DecidableEq

/-- The ChromeExtensionImpl platform adapter; every entry is optional.
`removeTab`, `selectTab` and `removeWindow` matter only through their
presence, so they are configuration flags whose calls the store records. -/
structure StoreImpl where
  createTab : Option (CreateProperties → AdapterTabReturn)
  createWindow : Option (CreateData → JSVal)
  removeTab : Bool
  selectTab : Bool
  removeWindow : Bool

/-- Ambient Electron runtime facts, passed explicitly: the destroyed flags,
`webContents.fromId` liveness, and the `BrowserWindow.fromWebContents`
fallback used by getActiveTabFromWebContents. -/
structure StoreEnv where
  tabDestroyed : Nat → Bool
  winDestroyed : Nat → Bool
  winFromWC : Nat → Option Nat
  liveWebContents : Nat → Bool

/-- `WeakMap.get`, the map modelled as an association list keyed by id. -/
def wmGet (m : List (Nat × Nat)) (k : Nat) : Option Nat :=
  (m.find? (fun p => p.1 == k)).map Prod.snd

/-- `WeakMap.set`. -/
def wmSet (m : List (Nat × Nat)) (k v : Nat) : List (Nat × Nat) :=
  if m.any (fun p => p.1 == k) then
    m.map (fun p => if p.1 == k then (p.1, v) else p)
  else
    m ++ [(k, v)]

/-- `WeakMap.delete`. -/
def wmDelete (m : List (Nat × Nat)) (k : Nat) : List (Nat × Nat) :=
  m.filter (fun p => p.1 != k)

/-- store.ts `ExtensionStore` state: the tracked tab and window sets in
insertion order, the last-focused window id, the tab-to-window and
window-to-active-tab relations, the lifecycle events emitted so far, and
the platform-adapter and default-teardown calls made so far. -/
structure ExtensionStore where
  tabs : List Nat
  windows : List Nat
  lastFocusedWindowId : Option Nat
  tabToWindow : List (Nat × Nat)
  windowToActiveTab : List (Nat × Nat)
  events : List StoreEvent
  implRemoveTabCalls : List (Nat × Option Nat)
  implSelectTabCalls : List (Nat × Nat)
  implRemoveWindowCalls : List Nat
  windowDestroyCalls : List Nat
  deriving DecidableEq

/-- The store with nothing tracked. -/
def emptyStore : ExtensionStore :=
  { tabs := [], windows := [], lastFocusedWindowId := none, tabToWindow := [],
    windowToActiveTab := [], events := [], implRemoveTabCalls := [],
    implSelectTabCalls := [], implRemoveWindowCalls := [],
    windowDestroyCalls := [] }

/-- store.ts `getActiveTabFromWindow`: the active tab of the window, absent
when the window or the recorded tab is destroyed. -/
def getActiveTabFromWindow (env : StoreEnv) (s : ExtensionStore) (win : Nat) :
    Option Nat :=
  if env.winDestroyed win then none
  else
    match wmGet s.windowToActiveTab win with
    | none => none
    | some t => if env.tabDestroyed t then none else some t

/-- store.ts `getActiveTabFromWebContents`: resolve the owning window via
the tab-to-window relation, falling back to BrowserWindow.fromWebContents,
then read its active tab. -/
def getActiveTabFromWebContents (env : StoreEnv) (s : ExtensionStore) (wc : Nat) :
    Option Nat :=
  match (wmGet s.tabToWindow wc).orElse (fun _ => env.winFromWC wc) with
  | none => none
  | some win => getActiveTabFromWindow env s win

/-- store.ts `addWindow`: idempotent; the first window ever added becomes
the last-focused default; emits window-added. -/
def addWindow (s : ExtensionStore) (win : Nat) : ExtensionStore :=
  if s.windows.contains win then s
  else
    let s1 := { s with windows := s.windows ++ [win] }
    let s2 :=
      match s1.lastFocusedWindowId with
      | none => { s1 with lastFocusedWindowId := some win }
      | some _ => s1
    { s2 with events := s2.events ++ [.windowAdded win] }

/-- store.ts `setActiveTab`: throw when the tab has no owning window; set
the window-to-active-tab relation; when the active tab actually changed,
emit active-tab-changed and invoke the selectTab adapter hook when
configured. -/
def setActiveTab (env : StoreEnv) (impl : StoreImpl) (s : ExtensionStore)
    (tab : Nat) : Except StoreError ExtensionStore :=
  match wmGet s.tabToWindow tab with
  | none => .error .noParentWindow
  | some win =>
    let prevActiveTab := getActiveTabFromWebContents env s tab
    let s1 := { s with windowToActiveTab := wmSet s.windowToActiveTab win tab }
    if prevActiveTab != some tab then
      let s2 := { s1 with events := s1.events ++ [.activeTabChanged tab win] }
      let s3 :=
        if impl.selectTab then
          { s2 with implSelectTabCalls := s2.implSelectTabCalls ++ [(tab, win)] }
        else s2
      .ok s3
    else .ok s1

/-- store.ts `addTab`: idempotent; records the owning window, implicitly
adds it, makes the tab active when the window has no live active tab yet,
and emits tab-added. -/
def addTab (env : StoreEnv) (impl : StoreImpl) (s : ExtensionStore)
    (tab win : Nat) : Except StoreError ExtensionStore := do
  if s.tabs.contains tab then
    return s
  let s1 := { s with tabs := s.tabs ++ [tab],
                     tabToWindow := wmSet s.tabToWindow tab win }
  let s2 := addWindow s1 win
  let s3 ←
    if (getActiveTabFromWebContents env s2 tab).isNone then
      setActiveTab env impl s2 tab
    else
      pure s2
  return { s3 with events := s3.events ++ [.tabAdded tab] }

/-- store.ts `removeTab`: no-op when untracked; removes the tab from the
set and the relation, drops the owning window when it has no remaining
tracked tab (without any destroy call), invokes the removeTab adapter hook
when configured, and emits tab-removed with the tab id. -/
def removeTab (impl : StoreImpl) (s : ExtensionStore) (tab : Nat) :
    ExtensionStore :=
  if !s.tabs.contains tab then s
  else
    let win := wmGet s.tabToWindow tab
    let s1 := { s with tabs := s.tabs.erase tab,
                       tabToWindow := wmDelete s.tabToWindow tab }
    let windowHasTabs := s1.tabs.any (fun t => wmGet s1.tabToWindow t == win)
    let s2 :=
      if !windowHasTabs then
        match win with
        | some w => { s1 with windows := s1.windows.erase w }
        | none => s1
      else s1
    let s3 :=
      if impl.removeTab then
        { s2 with implRemoveTabCalls := s2.implRemoveTabCalls ++ [(tab, win)] }
      else s2
    { s3 with events := s3.events ++ [.tabRemoved tab] }

/-- store.ts `removeWindow`: no-op when untracked; removes the window from
the set, then either delegates teardown to the removeWindow adapter hook or
destroys the window itself. -/
def removeWindow (impl : StoreImpl) (s : ExtensionStore) (win : Nat) :
    ExtensionStore :=
  if !s.windows.contains win then s
  else
    let s1 := { s with windows := s.windows.erase win }
    if impl.removeWindow then
      { s1 with implRemoveWindowCalls := s1.implRemoveWindowCalls ++ [win] }
    else
      { s1 with windowDestroyCalls := s1.windowDestroyCalls ++ [win] }

/-- store.ts `createWindow`: throw when no adapter function is configured;
otherwise call the adapter and hand its result to addWindow without any
validation of its shape, then return it.  A result carrying an id field (a
window object) is tracked under that id; the source inserts any other raw
result value into its windows set too, which the Nat-keyed model cannot
represent, so such junk leaves the tracked set unchanged here — either way
the operation succeeds and no InvalidAdapterResult check exists on this
path. -/
def createWindow (impl : StoreImpl) (s : ExtensionStore) (details : CreateData) :
    Except StoreError (ExtensionStore × JSVal) :=
  match impl.createWindow with
  | none => .error .notImplemented
  | some f =>
    let win := f details
    match win.idField with
    | some w => .ok (addWindow s w, win)
    | none => .ok (s, win)

/-- The JS-falsy test of `details.windowId` (undefined or 0). -/
def windowIdFalsy : Option Nat → Bool
  | none => true
  | some n => n == 0

/-- The createProperties actually given to the createTab adapter: a falsy
windowId is first rewritten to the last-focused window id. -/
def adapterCreateTabInput (s : ExtensionStore) (details : CreateProperties) :
    CreateProperties :=
  if windowIdFalsy details.windowId then
    { details with windowId := s.lastFocusedWindowId }
  else details

/-- store.ts `createTab`, the part after the adapter call: the result must
be an array whose first element is an object with a live WebContents id and
whose second element is an object; else throw.  On a valid result, addTab
is called on the pair and the tab value is returned. -/
def handleCreateTabResult (env : StoreEnv) (impl : StoreImpl) (s : ExtensionStore)
    (result : AdapterTabReturn) : Except StoreError (ExtensionStore × JSVal) :=
  match result with
  | .value _ => .error .invalidAdapterResult
  | .tuple elems =>
    let tab := elems.getD 0 .undef
    let window := elems.getD 1 .undef
    if !tab.isObject ||
        !(match tab.idField with
          | some i => env.liveWebContents i
          | none => false) then
      .error .invalidAdapterResult
    else if !window.isObject then
      .error .invalidAdapterResult
    else do
      let s1 ← addTab env impl s (tab.idField.getD 0) (window.idField.getD 0)
      return (s1, tab)

/-- store.ts `createTab`: throw when no adapter function is configured,
rewrite a falsy windowId to the last-focused window, call the adapter and
validate its result. -/
def createTab (env : StoreEnv) (impl : StoreImpl) (s : ExtensionStore)
    (details : CreateProperties) : Except StoreError (ExtensionStore × JSVal) :=
  match impl.createTab with
  | none => .error .notImplemented
  | some f => handleCreateTabResult env impl s (f (adapterCreateTabInput s details))

/-- A default environment: nothing destroyed, every WebContents id live, no
fromWebContents fallback. -/
def envC : StoreEnv :=
  { tabDestroyed := fun _ => false, winDestroyed := fun _ => false,
    winFromWC := fun _ => none, liveWebContents := fun _ => true }

/-- An adapter with nothing configured. -/
def implNone : StoreImpl :=
  { createTab := none, createWindow := none, removeTab := false,
    selectTab := false, removeWindow := false }

end CrxStore

namespace CrxRouter

/-- Claim C1: dispatching a verb fails with UnknownVerb when no handler is
registered; otherwise fails with CrossSessionNotAllowed when the caller
session differs from the router session and the policy disallows remote
calls (even if the extension context would also fail); otherwise fails with
UnknownExtensionContext when the handler requires an extension context and
the extensionId does not resolve in the caller session; otherwise invokes
the callback on the context object and returns its result.  The failure
checks apply in exactly that order. -/
theorem onExtensionMessage_dispatch_order {α ρ : Type} (handlers : HandlerMap α ρ)
    (routerSessionId : Nat) (sender : Sender) (extensionId : Option String)
    (handlerName : String) (args : List α) :
    (handlers.find? (fun p => p.1 == handlerName) = none →
      onExtensionMessage handlers routerSessionId sender extensionId handlerName args =
        .error .unknownVerb)
    ∧ (∀ pr, handlers.find? (fun p => p.1 == handlerName) = some pr →
        sender.session.sessionId ≠ routerSessionId → pr.2.allowRemote = false →
        onExtensionMessage handlers routerSessionId sender extensionId handlerName args =
          .error .crossSessionNotAllowed)
    ∧ (∀ pr, handlers.find? (fun p => p.1 == handlerName) = some pr →
        (sender.session.sessionId = routerSessionId ∨ pr.2.allowRemote = true) →
        pr.2.extensionContext = true →
        extensionId.bind sender.session.getExtension = none →
        onExtensionMessage handlers routerSessionId sender extensionId handlerName args =
          .error .unknownExtensionContext)
    ∧ (∀ pr, handlers.find? (fun p => p.1 == handlerName) = some pr →
        (sender.session.sessionId = routerSessionId ∨ pr.2.allowRemote = true) →
        (pr.2.extensionContext = false ∨
          (extensionId.bind sender.session.getExtension).isSome) →
        onExtensionMessage handlers routerSessionId sender extensionId handlerName args =
          .ok (pr.2.callback
            { sender := sender,
              extension := extensionId.bind sender.session.getExtension } args)) := by
  refine ⟨?_, ?_, ?_, ?_⟩
  · intro hfind
    simp [onExtensionMessage, getHandler, hfind, bind, Except.bind]
  · intro pr hfind hsess hremote
    simp only [onExtensionMessage, getHandler, hfind, bind, Except.bind]
    have hne : (sender.session.sessionId != routerSessionId) = true := by
      simpa using hsess
    simp [hne, hremote]
  · intro pr hfind hsess hctx hext
    simp only [onExtensionMessage, getHandler, hfind, bind, Except.bind]
    have hcond : (sender.session.sessionId != routerSessionId && !pr.2.allowRemote) = false := by
      rcases hsess with h | h
      · simp [h]
      · simp [h]
    simp [hcond, hext, hctx, pure, Except.pure]
  · intro pr hfind hsess hok
    simp only [onExtensionMessage, getHandler, hfind, bind, Except.bind]
    have hcond : (sender.session.sessionId != routerSessionId && !pr.2.allowRemote) = false := by
      rcases hsess with h | h
      · simp [h]
      · simp [h]
    have hcond2 : ((extensionId.bind sender.session.getExtension).isNone
        && pr.2.extensionContext) = false := by
      rcases hok with h | h
      · simp [h]
      · simp [Option.isSome_iff_ne_none.mp h]
    simp [hcond, hcond2, pure, Except.pure]

lemma applyListenerOp_add_empty {exts : List String} {l : EventListener}
    {extId e : String} (hl : exts.contains extId = true) :
    applyListenerOp exts l extId e [] .add = [(e, [l])] := by
  have hl1 : extId ∈ exts := by simpa using hl
  simp [applyListenerOp, addListener, hl1, regGet, regSet, eventListenerEquals]

lemma applyListenerOp_add_single {exts : List String} {l : EventListener}
    {extId e : String} (hl : exts.contains extId = true) :
    applyListenerOp exts l extId e [(e, [l])] .add = [(e, [l])] := by
  have hl1 : extId ∈ exts := by simpa using hl
  simp [applyListenerOp, addListener, hl1, regGet, regSet, eventListenerEquals]

lemma applyListenerOp_remove_empty {exts : List String} {l : EventListener}
    {extId e : String} :
    applyListenerOp exts l extId e [] .remove = [] := by
  simp [applyListenerOp, removeListener, regGet]

lemma applyListenerOp_remove_single {exts : List String} {l : EventListener}
    {extId e : String} :
    applyListenerOp exts l extId e [(e, [l])] .remove = [] := by
  simp [applyListenerOp, removeListener, regGet, regDelete, eventListenerEquals,
    List.findIdx?, List.eraseIdx]

lemma applyListenerOps_state {exts : List String} {l : EventListener}
    {extId e : String} (hl : exts.contains extId = true) :
    ∀ (ops : List ListenerOp) (reg : ListenerRegistry),
      (reg = [] ∨ reg = [(e, [l])]) →
      (applyListenerOps exts l extId e reg ops = [] ∨
        applyListenerOps exts l extId e reg ops = [(e, [l])]) := by
  intro ops
  induction ops with
  | nil => intro reg h; simpa [applyListenerOps] using h
  | cons op rest ih =>
    intro reg h
    have hstep : applyListenerOp exts l extId e reg op = [] ∨
        applyListenerOp exts l extId e reg op = [(e, [l])] := by
      rcases h with h | h <;> subst h <;> cases op
      · exact Or.inr (applyListenerOp_add_empty hl)
      · exact Or.inl applyListenerOp_remove_empty
      · exact Or.inr (applyListenerOp_add_single hl)
      · exact Or.inl applyListenerOp_remove_single
    exact ih _ hstep

lemma registryHasPair_empty {e : String} {l : EventListener} :
    registryHasPair [] e l = false := by
  simp [registryHasPair, regGet]

lemma registryHasPair_single {e : String} {l : EventListener} :
    registryHasPair [(e, [l])] e l = true := by
  simp [registryHasPair, regGet, eventListenerEquals]

/-- Witness for C1: a handler requiring an extension context, called with no
extensionId, rejects with UnknownExtensionContext. -/
theorem onExtensionMessage_dispatch_order_witness :
    onExtensionMessage (α := Nat) (ρ := Nat)
      [("tabs.query", { callback := fun _ _ => 7, extensionContext := true,
                        allowRemote := false })]
      1 { senderId := 5, session := { sessionId := 1, extensions := [] } }
      none "tabs.query" [] = .error .unknownExtensionContext := by
  exact (onExtensionMessage_dispatch_order
      [("tabs.query", { callback := fun _ _ => 7, extensionContext := true,
                        allowRemote := false })]
      1 { senderId := 5, session := { sessionId := 1, extensions := [] } }
      none "tabs.query" []).2.2.1
    ("tabs.query", { callback := fun _ _ => 7, extensionContext := true,
                     allowRemote := false })
    rfl (Or.inl rfl) rfl rfl

/-- Counterexample for C2 as stated: after the sequence add, add, remove on
one triple the pair is absent from the registry although the number of adds
(2) exceeds the number of removes (1), because the second add was an
idempotent no-op. -/
theorem listener_count_membership_counterexample :
    ¬ (registryHasPair
        (applyListenerOps ["ext-a"] ⟨1, "ext-a"⟩ "ext-a" "tabs.onCreated" []
          [.add, .add, .remove]) "tabs.onCreated" ⟨1, "ext-a"⟩ = true
        ↔ 2 > 1) := by
  decide

/-- Claim C2 (amended): over any sequence of addListener and removeListener
calls on one (host, extensionId, eventName) triple starting from an empty
registry, the registry never holds two entries for the pair (it is empty or
exactly the singleton), registration is idempotent (an add for a present
pair returns the registry unchanged), and the final membership of the pair
holds exactly when the sequence is nonempty and its last operation is an
add — not when the add count exceeds the remove count. -/
theorem listener_sequence_spec (exts : List String) (l : EventListener)
    (extId e : String) (ops : List ListenerOp) (hl : exts.contains extId = true) :
    (applyListenerOps exts l extId e [] ops = [] ∨
      applyListenerOps exts l extId e [] ops = [(e, [l])])
    ∧ (registryHasPair (applyListenerOps exts l extId e [] ops) e l = true ↔
        ops.getLast? = some .add)
    ∧ (∀ reg, registryHasPair reg e l = true →
        addListener exts reg l extId e = .ok reg) := by
  refine ⟨applyListenerOps_state hl ops [] (Or.inl rfl), ?_, ?_⟩
  · induction ops using List.reverseRecOn with
    | nil =>
      simp [applyListenerOps, registryHasPair, regGet]
    | append_singleton rest op _ih =>
      have hsplit : applyListenerOps exts l extId e [] (rest ++ [op]) =
          applyListenerOp exts l extId e (applyListenerOps exts l extId e [] rest) op := by
        simp [applyListenerOps, List.foldl_append]
      have hlast : (rest ++ [op]).getLast? = some op := by
        simp [List.getLast?_append]
      rcases applyListenerOps_state hl rest [] (Or.inl rfl) with h | h <;>
        rw [hsplit, h, hlast] <;> cases op
      · rw [applyListenerOp_add_empty hl]
        simp [registryHasPair_single]
      · rw [applyListenerOp_remove_empty]
        simp [registryHasPair_empty]
      · rw [applyListenerOp_add_single hl]
        simp [registryHasPair_single]
      · rw [applyListenerOp_remove_single]
        simp [registryHasPair_empty]
  · intro reg hmem
    unfold registryHasPair at hmem
    cases hreg : regGet reg e with
    | none => rw [hreg] at hmem; simp at hmem
    | some ls =>
      rw [hreg] at hmem
      simp only [Option.getD_some] at hmem
      obtain ⟨x, hx, hxl⟩ := List.any_eq_true.mp hmem
      obtain ⟨y, hy⟩ := Option.isSome_iff_exists.mp
        (List.find?_isSome.mpr ⟨x, hx, hxl⟩)
      have hl1 : extId ∈ exts := by simpa using hl
      simp [addListener, hl1, hreg, hy]

/-- Witness for C2 (amended): the sequence add, remove, add ends with the
pair registered. -/
theorem listener_sequence_spec_witness :
    registryHasPair
      (applyListenerOps ["crx"] ⟨2, "crx"⟩ "crx" "tabs.onRemoved" []
        [.add, .remove, .add]) "tabs.onRemoved" ⟨2, "crx"⟩ = true := by
  exact (listener_sequence_spec ["crx"] ⟨2, "crx"⟩ "crx" "tabs.onRemoved"
    [.add, .remove, .add] (by decide)).2.1.mpr (by decide)

lemma forOfHostsAux_of_le (destroyed : Nat → Bool) (k : Nat) (m : RegMutation) :
    ∀ (fuel : Nat) (arr : List EventListener) (i : Nat),
      arr.length ≤ k → arr.length ≤ i + fuel →
      forOfHostsAux destroyed k m fuel arr i =
        ((arr.drop i).filter (fun l => !destroyed l.host)).map (fun l => l.host) := by
  intro fuel
  induction fuel with
  | zero =>
    intro arr i _ hfuel
    rw [List.drop_eq_nil_of_le (by simpa using hfuel)]
    simp [forOfHostsAux]
  | succ fuel ih =>
    intro arr i hk hfuel
    by_cases h : i < arr.length
    · have hik : (i == k) = false := by
        simp only [beq_eq_false_iff_ne]
        omega
      have htail := ih arr (i + 1) hk (by omega)
      have hdrop : arr.drop i = arr[i] :: arr.drop (i + 1) :=
        List.drop_eq_getElem_cons h
      rw [forOfHostsAux, dif_pos h, hik]
      simp only [Bool.false_eq_true, if_false, htail, List.get_eq_getElem]
      rw [hdrop, List.filter_cons]
      by_cases hd : destroyed arr[i].host
      · simp [hd]
      · simp [hd]
    · have : arr.drop i = [] := List.drop_eq_nil_of_le (by omega)
      rw [forOfHostsAux]
      simp [h, this]

/-- Counterexample for C3 as stated: with two listeners registered for an
event and no extensionId filter, a removeListener for the first listener
interleaved during iteration 0 of the fan-out changes the recipients (the
second listener is skipped), because the broadcast path iterates the live
registry array rather than a snapshot. -/
theorem sendEvent_snapshot_counterexample :
    sendEventWithInterleave [("ev", [⟨1, "a"⟩, ⟨2, "a"⟩])] (fun _ => false)
        none "ev" 0 (.removeL ⟨1, "a"⟩) ≠
      sendEvent [("ev", [⟨1, "a"⟩, ⟨2, "a"⟩])] (fun _ => false) none "ev" := by
  decide

/-- Claim C3 (amended): sendEvent delivers to the matching, non-destroyed
listeners in registration order.  When an extensionId filter is given, the
fan-out loop runs over the freshly allocated filtered array, so a concurrent
add or remove of a listener for the event cannot change the recipients.
When no extensionId is given, the loop reads the live registry array, and
only in the absence of an interleaved mutation (the single-threaded normal
case: the mutation point lies at or beyond the end of the list) do the
recipients equal the listener list at call time. -/
theorem sendEvent_fanout_spec (reg : ListenerRegistry) (destroyed : Nat → Bool)
    (eventName : String) :
    (∀ eid k m, sendEventWithInterleave reg destroyed (some eid) eventName k m =
        sendEvent reg destroyed (some eid) eventName)
    ∧ (∀ k m, ((regGet reg eventName).getD []).length ≤ k →
        sendEventWithInterleave reg destroyed none eventName k m =
          sendEvent reg destroyed none eventName)
    ∧ (∀ extensionId, sendEvent reg destroyed extensionId eventName =
        ((((regGet reg eventName).getD []).filter (listenerMatches extensionId)).filter
          (fun l => !destroyed l.host)).map (fun l => l.host)) := by
  refine ⟨fun _ _ _ => rfl, ?_, ?_⟩
  · intro k m hk
    cases hreg : regGet reg eventName with
    | none => simp [sendEventWithInterleave, sendEvent, hreg]
    | some arr =>
      rw [hreg] at hk
      simp only [Option.getD_some] at hk
      by_cases harr : arr.isEmpty
      · simp [sendEventWithInterleave, sendEvent, hreg, harr,
          List.isEmpty_iff.mp harr]
      · have := forOfHostsAux_of_le destroyed k m (arr.length + 2) arr 0 hk (by omega)
        simp only [List.drop_zero] at this
        simp [sendEventWithInterleave, sendEvent, hreg, harr, this]
  · intro extensionId
    cases extensionId with
    | none =>
      cases hreg : regGet reg eventName with
      | none => simp [sendEvent, hreg, listenerMatches]
      | some arr =>
        by_cases harr : arr.isEmpty
        · simp [sendEvent, hreg, harr, List.isEmpty_iff.mp harr, listenerMatches]
        · simp [sendEvent, hreg, harr, listenerMatches]
    | some eid =>
      cases hreg : regGet reg eventName with
      | none => simp [sendEvent, hreg, listenerMatches]
      | some arr =>
        by_cases harr : (arr.filter (fun el => el.extensionId == eid)).isEmpty
        · have hnil : arr.filter (fun el => el.extensionId == eid) = [] :=
            List.isEmpty_iff.mp harr
          simp [sendEvent, hreg, harr, listenerMatches]
          intro a ha _
          simpa using (List.filter_eq_nil_iff.mp hnil) a ha
        · simp [sendEvent, hreg, harr, listenerMatches]

/-- Witness for C3 (amended): with no mutation interleaved inside the loop
range, the broadcast fan-out delivers to the listener list at call time. -/
theorem sendEvent_fanout_spec_witness :
    sendEventWithInterleave [("ev", [⟨1, "a"⟩, ⟨2, "a"⟩])] (fun _ => false)
        none "ev" 5 (.removeL ⟨1, "a"⟩) =
      sendEvent [("ev", [⟨1, "a"⟩, ⟨2, "a"⟩])] (fun _ => false) none "ev" := by
  exact (sendEvent_fanout_spec [("ev", [⟨1, "a"⟩, ⟨2, "a"⟩])] (fun _ => false)
    "ev").2.1 5 (.removeL ⟨1, "a"⟩) (by decide)

end CrxRouter

namespace CrxTabs

/-- Claim C4 (code-bug evidence): a signal in which every watched field kept
its value (only the unwatched width changed, 800 to 900) still broadcasts a
tabs.onUpdated event, with mutedInfo as the delta, because createTabDetails
allocates a new mutedInfo object on every snapshot and the diff compares it
by reference. -/
theorem onUpdated_emits_without_watched_change :
    ((createTabDetails tabC4 none (some ⟨1, 900, 600⟩) 1).status ==
        (createTabDetails tabC4 none (some ⟨1, 800, 600⟩) 0).status
      && (createTabDetails tabC4 none (some ⟨1, 900, 600⟩) 1).url ==
        (createTabDetails tabC4 none (some ⟨1, 800, 600⟩) 0).url
      && (createTabDetails tabC4 none (some ⟨1, 900, 600⟩) 1).pinned ==
        (createTabDetails tabC4 none (some ⟨1, 800, 600⟩) 0).pinned
      && (createTabDetails tabC4 none (some ⟨1, 900, 600⟩) 1).audible ==
        (createTabDetails tabC4 none (some ⟨1, 800, 600⟩) 0).audible
      && (createTabDetails tabC4 none (some ⟨1, 900, 600⟩) 1).discarded ==
        (createTabDetails tabC4 none (some ⟨1, 800, 600⟩) 0).discarded
      && (createTabDetails tabC4 none (some ⟨1, 900, 600⟩) 1).autoDiscardable ==
        (createTabDetails tabC4 none (some ⟨1, 800, 600⟩) 0).autoDiscardable
      && (createTabDetails tabC4 none (some ⟨1, 900, 600⟩) 1).mutedInfo.muted ==
        (createTabDetails tabC4 none (some ⟨1, 800, 600⟩) 0).mutedInfo.muted
      && (createTabDetails tabC4 none (some ⟨1, 900, 600⟩) 1).favIconUrl ==
        (createTabDetails tabC4 none (some ⟨1, 800, 600⟩) 0).favIconUrl
      && (createTabDetails tabC4 none (some ⟨1, 900, 600⟩) 1).title ==
        (createTabDetails tabC4 none (some ⟨1, 800, 600⟩) 0).title) = true
    ∧ (onUpdated [(1, createTabDetails tabC4 none (some ⟨1, 800, 600⟩) 0)]
        tabC4 none (some ⟨1, 900, 600⟩) 1).1 =
      some (⟨none, none, none, none, none, none, some ⟨1, false⟩, none, none⟩,
        createTabDetails tabC4 none (some ⟨1, 900, 600⟩) 1) := by
  decide

end CrxTabs

namespace CrxBrowserAction

lemma onUpdate_of_queued {s : ActionUpdateState} (h : s.queuedUpdate = true) :
    onUpdate s = s := by
  simp [onUpdate, h]

lemma onUpdate_iterate_of_queued :
    ∀ (m : Nat) {s : ActionUpdateState}, s.queuedUpdate = true →
      onUpdate^[m] s = s := by
  intro m
  induction m with
  | zero => intro s _; rfl
  | succ m ih =>
    intro s h
    rw [Function.iterate_succ_apply, onUpdate_of_queued h]
    exact ih h

/-- Claim C5: a burst of n >= 1 synchronous mutations starting from a state
with no pending flush sets the pending flag and queues exactly one microtask
(the later mutations of the burst are absorbed), and running the queued
flush clears the flag and appends exactly one broadcast addressed to every
current non-destroyed observer, whatever n was. -/
theorem coalesced_update_spec (s : ActionUpdateState) (n : Nat)
    (destroyed : Nat → Bool) (hq : s.queuedUpdate = false) (hn : 1 ≤ n) :
    (onUpdate^[n] s).queuedUpdate = true
    ∧ (onUpdate^[n] s).scheduledFlushes = s.scheduledFlushes + 1
    ∧ (onUpdate^[n] s).observers = s.observers
    ∧ (onUpdate^[n] s).broadcasts = s.broadcasts
    ∧ runQueuedFlush destroyed (onUpdate^[n] s) =
        { queuedUpdate := false, scheduledFlushes := s.scheduledFlushes,
          observers := s.observers,
          broadcasts := s.broadcasts ++ [s.observers.filter (fun o => !destroyed o)] } := by
  obtain ⟨m, rfl⟩ : ∃ m, n = m + 1 := ⟨n - 1, by omega⟩
  have h1 : onUpdate s =
      { s with queuedUpdate := true, scheduledFlushes := s.scheduledFlushes + 1 } := by
    simp [onUpdate, hq]
  have h2 : onUpdate^[m + 1] s =
      { s with queuedUpdate := true, scheduledFlushes := s.scheduledFlushes + 1 } := by
    rw [Function.iterate_succ_apply, h1]
    exact onUpdate_iterate_of_queued m rfl
  rw [h2]
  refine ⟨rfl, rfl, rfl, rfl, ?_⟩
  simp [runQueuedFlush]

/-- Witness for C5: three mutations in one tick queue one flush, and the
flush broadcasts once to both observers. -/
theorem coalesced_update_spec_witness :
    (onUpdate^[3] (⟨false, 0, [4, 5], []⟩ : ActionUpdateState)).scheduledFlushes = 1
    ∧ runQueuedFlush (fun _ => false)
        (onUpdate^[3] (⟨false, 0, [4, 5], []⟩ : ActionUpdateState)) =
      ⟨false, 0, [4, 5], [[4, 5]]⟩ := by
  have h := coalesced_update_spec ⟨false, 0, [4, 5], []⟩ 3 (fun _ => false) rfl
    (by decide)
  exact ⟨h.2.1, h.2.2.2.2⟩

end CrxBrowserAction

namespace CrxRouter

lemma regGet_cons (pr : String × List EventListener) (rest : ListenerRegistry)
    (e : String) :
    regGet (pr :: rest) e = if pr.1 == e then some pr.2 else regGet rest e := by
  by_cases h : pr.1 == e <;> simp [regGet, List.find?_cons, h]

lemma regGet_filterListeners_not_mem (p : EventListener → Bool) :
    ∀ (reg : ListenerRegistry) (e : String), (∀ pr ∈ reg, pr.1 ≠ e) →
      regGet (filterListeners p reg) e = none := by
  intro reg
  induction reg with
  | nil => intro e _; rfl
  | cons pr rest ih =>
    intro e hmem
    have h1 : pr.1 ≠ e := hmem pr (List.mem_cons_self pr rest)
    by_cases hemp : (pr.2.filter p).isEmpty
    · have hfl : filterListeners p (pr :: rest) = filterListeners p rest := by
        simp only [filterListeners, List.filterMap_cons]
        rw [if_pos hemp]
      rw [hfl]
      exact ih e (fun q hq => hmem q (List.mem_cons_of_mem pr hq))
    · have hfl : filterListeners p (pr :: rest) =
          (pr.1, pr.2.filter p) :: filterListeners p rest := by
        simp only [filterListeners, List.filterMap_cons]
        rw [if_neg hemp]
      rw [hfl, regGet_cons, if_neg (by simpa using h1)]
      exact ih e (fun q hq => hmem q (List.mem_cons_of_mem pr hq))

lemma regGet_filterListeners (p : EventListener → Bool) :
    ∀ (reg : ListenerRegistry) (e : String), regWF reg →
      (regGet (filterListeners p reg) e).getD [] =
        ((regGet reg e).getD []).filter p := by
  intro reg
  induction reg with
  | nil => intro e _; rfl
  | cons pr rest ih =>
    intro e hwf
    have hwf2 : (pr.1 :: rest.map Prod.fst).Nodup := hwf
    have hnd := List.nodup_cons.mp hwf2
    have hwf1 : regWF rest := hnd.2
    by_cases hkey : pr.1 == e
    · have he : pr.1 = e := by simpa using hkey
      by_cases hemp : (pr.2.filter p).isEmpty
      · have hfl : filterListeners p (pr :: rest) = filterListeners p rest := by
          simp only [filterListeners, List.filterMap_cons]
          rw [if_pos hemp]
        have hnone : regGet (filterListeners p rest) e = none := by
          apply regGet_filterListeners_not_mem
          intro q hq hqe
          exact hnd.1 (he ▸ hqe ▸ List.mem_map_of_mem Prod.fst hq)
        rw [hfl, hnone, regGet_cons, if_pos hkey]
        simp [List.isEmpty_iff.mp hemp]
      · have hfl : filterListeners p (pr :: rest) =
            (pr.1, pr.2.filter p) :: filterListeners p rest := by
          simp only [filterListeners, List.filterMap_cons]
          rw [if_neg hemp]
        rw [hfl, regGet_cons, regGet_cons, if_pos hkey, if_pos hkey]
        rfl
    · by_cases hemp : (pr.2.filter p).isEmpty
      · have hfl : filterListeners p (pr :: rest) = filterListeners p rest := by
          simp only [filterListeners, List.filterMap_cons]
          rw [if_pos hemp]
        rw [hfl, regGet_cons, if_neg hkey]
        exact ih e hwf1
      · have hfl : filterListeners p (pr :: rest) =
            (pr.1, pr.2.filter p) :: filterListeners p rest := by
          simp only [filterListeners, List.filterMap_cons]
          rw [if_neg hemp]
        rw [hfl, regGet_cons, regGet_cons, if_neg hkey, if_neg hkey]
        exact ih e hwf1

/-- Claim C6: when the termination signal of a transport host fires, every
listener entry of that host is removed across all event names, the entries
of every other host survive in their original order (each event list is
exactly the original minus the dead-host entries), and afterwards the
registry holds no entry for that host. -/
theorem host_termination_spec (h : Nat) (reg : ListenerRegistry) (hwf : regWF reg) :
    (∀ e, (regGet (onHostDestroyed h reg) e).getD [] =
        ((regGet reg e).getD []).filter (fun l => l.host != h))
    ∧ (∀ e l, l ∈ (regGet (onHostDestroyed h reg) e).getD [] → l.host ≠ h) := by
  constructor
  · intro e
    exact regGet_filterListeners _ reg e hwf
  · intro e l hl
    rw [show onHostDestroyed h reg = filterListeners (fun l => l.host != h) reg from
        rfl, regGet_filterListeners _ reg e hwf] at hl
    simpa using (List.mem_filter.mp hl).2

/-- Witness for C6: destroying host 1 filters it out of the "a" event list
while keeping host 2 in place. -/
theorem host_termination_spec_witness :
    (regGet (onHostDestroyed 1
        [("a", [⟨1, "x"⟩, ⟨2, "x"⟩]), ("b", [⟨1, "x"⟩])]) "a").getD [] =
      ((regGet [("a", [⟨1, "x"⟩, ⟨2, "x"⟩]), ("b", [⟨1, "x"⟩])] "a").getD []).filter
        (fun l => l.host != 1) := by
  exact (host_termination_spec 1 [("a", [⟨1, "x"⟩, ⟨2, "x"⟩]), ("b", [⟨1, "x"⟩])]
    (by decide)).1 "a"

end CrxRouter

namespace CrxStore

lemma wmGet_wmDelete_self (m : List (Nat × Nat)) (k : Nat) :
    wmGet (wmDelete m k) k = none := by
  induction m with
  | nil => rfl
  | cons p rest ih =>
    by_cases hp : p.1 == k
    · have he : p.1 = k := by simpa using hp
      have h1 : wmDelete (p :: rest) k = wmDelete rest k := by
        simp only [wmDelete, List.filter_cons]
        rw [if_neg (by simp [he])]
      rw [h1]; exact ih
    · have hne : p.1 ≠ k := by simpa using hp
      have h1 : wmDelete (p :: rest) k = p :: wmDelete rest k := by
        simp only [wmDelete, List.filter_cons]
        rw [if_pos (by simp [hne])]
      rw [h1]
      simpa [wmGet, List.find?_cons, hp] using ih

lemma find?_wmSet_replace (m : List (Nat × Nat)) (k v : Nat)
    (hany : m.any (fun p => p.1 == k) = true) :
    (m.map (fun p => if p.1 == k then (p.1, v) else p)).find? (fun p => p.1 == k) =
      some (k, v) := by
  induction m with
  | nil => simp at hany
  | cons p rest ih =>
    by_cases hp : p.1 == k
    · have he : p.1 = k := by simpa using hp
      simp only [List.map_cons]
      rw [if_pos hp, List.find?_cons_of_pos _ (by simpa using hp), he]
    · have hany1 : rest.any (fun q => q.1 == k) = true := by
        rcases List.any_eq_true.mp hany with ⟨q, hq, hqk⟩
        rcases List.mem_cons.mp hq with h | h
        · subst h; exact absurd hqk hp
        · exact List.any_eq_true.mpr ⟨q, h, hqk⟩
      simp only [List.map_cons]
      rw [if_neg hp, List.find?_cons_of_neg _ (by simpa using hp)]
      exact ih hany1

lemma find?_append_of_none {α : Type} (p : α → Bool) :
    ∀ (l1 l2 : List α), l1.find? p = none → (l1 ++ l2).find? p = l2.find? p := by
  intro l1
  induction l1 with
  | nil => intro l2 _; rfl
  | cons a t ih =>
    intro l2 hn
    cases hpa : p a with
    | true => simp [List.find?_cons, hpa] at hn
    | false =>
      rw [List.cons_append]
      simp only [List.find?_cons, hpa] at hn ⊢
      exact ih l2 hn

lemma wmGet_wmSet_self (m : List (Nat × Nat)) (k v : Nat) :
    wmGet (wmSet m k v) k = some v := by
  by_cases hany : m.any (fun p => p.1 == k)
  · unfold wmSet
    rw [if_pos hany]
    unfold wmGet
    rw [find?_wmSet_replace m k v hany]
    rfl
  · unfold wmSet
    rw [if_neg hany]
    unfold wmGet
    have hnone : m.find? (fun p => p.1 == k) = none := by
      rw [List.find?_eq_none]
      intro q hq hqk
      exact hany (List.any_eq_true.mpr ⟨q, hq, hqk⟩)
    rw [find?_append_of_none _ m [(k, v)] hnone]
    simp [List.find?_cons]

/-- Claim C7: removeTab is a no-op for an untracked tab (so a second call
changes nothing); a tracked tab is removed from the tracked set and from
the tab-to-window relation and tab-removed(tabId) is emitted; when no
remaining tracked tab maps to the owning window, the window is dropped from
the tracked window set, with no destroy call either way; and addTab
followed immediately by removeTab on the sole tab of a window leaves the
window untracked. -/
theorem removeTab_spec (impl : StoreImpl) (s : ExtensionStore) (tab : Nat) :
    (s.tabs.contains tab = false → removeTab impl s tab = s)
    ∧ (s.tabs.contains tab = true →
        (removeTab impl s tab).tabs = s.tabs.erase tab
        ∧ wmGet (removeTab impl s tab).tabToWindow tab = none
        ∧ (removeTab impl s tab).events = s.events ++ [.tabRemoved tab]
        ∧ (removeTab impl s tab).windowDestroyCalls = s.windowDestroyCalls
        ∧ (removeTab impl s tab).implRemoveWindowCalls = s.implRemoveWindowCalls
        ∧ (∀ w, wmGet s.tabToWindow tab = some w →
            ((s.tabs.erase tab).any
                (fun t => wmGet (wmDelete s.tabToWindow tab) t == some w) = false →
              (removeTab impl s tab).windows = s.windows.erase w)
            ∧ ((s.tabs.erase tab).any
                (fun t => wmGet (wmDelete s.tabToWindow tab) t == some w) = true →
              (removeTab impl s tab).windows = s.windows)))
    ∧ ((addTab envC implNone emptyStore 1 1).map
        (fun s1 => ((removeTab implNone s1 1).windows,
          (removeTab implNone s1 1).tabs,
          (removeTab implNone s1 1).windowDestroyCalls)) = .ok ([], [], [])) := by
  refine ⟨?_, ?_, by rfl⟩
  · intro hc
    unfold removeTab
    rw [if_pos (by simpa using hc)]
  · intro hc
    have hcond : ¬((!s.tabs.contains tab) = true) := by simpa using hc
    cases hwin : wmGet s.tabToWindow tab with
    | none =>
      unfold removeTab
      rw [if_neg hcond, hwin]
      cases hit : impl.removeTab <;>
        refine ⟨by simp [hit], by simp [hit, wmGet_wmDelete_self], by simp [hit],
          by simp [hit], by simp [hit], ?_⟩ <;>
        · intro w hw
          exact Option.noConfusion hw
    | some w0 =>
      unfold removeTab
      rw [if_neg hcond, hwin]
      cases hany : ((s.tabs.erase tab).any
          (fun t => wmGet (wmDelete s.tabToWindow tab) t == some w0)) with
      | false =>
        cases hit : impl.removeTab <;>
          refine ⟨by simp [hany, hit], by simp [hany, hit, wmGet_wmDelete_self],
            by simp [hany, hit], by simp [hany, hit], by simp [hany, hit],
            fun w hw => ?_⟩ <;>
          · obtain rfl : w0 = w := Option.some.inj hw
            refine ⟨fun _ => by simp [hany, hit], fun h2 => ?_⟩
            rw [hany] at h2
            exact Bool.noConfusion h2
      | true =>
        cases hit : impl.removeTab <;>
          refine ⟨by simp [hany, hit], by simp [hany, hit, wmGet_wmDelete_self],
            by simp [hany, hit], by simp [hany, hit], by simp [hany, hit],
            fun w hw => ?_⟩ <;>
          · obtain rfl : w0 = w := Option.some.inj hw
            refine ⟨fun h2 => ?_, fun _ => by simp [hany, hit]⟩
            rw [hany] at h2
            exact Bool.noConfusion h2

/-- Witness for C7: removing the tracked tab 1 emits tab-removed(1). -/
theorem removeTab_spec_witness :
    (removeTab implNone
      { emptyStore with tabs := [1], windows := [1], tabToWindow := [(1, 1)] }
      1).events = [] ++ [.tabRemoved 1] := by
  exact ((removeTab_spec implNone
    { emptyStore with tabs := [1], windows := [1], tabToWindow := [(1, 1)] }
    1).2.1 rfl).2.2.1

end CrxStore

namespace CrxStore

lemma setActiveTab_ok (env : StoreEnv) (impl : StoreImpl) (s : ExtensionStore)
    (tab w : Nat) (hw : wmGet s.tabToWindow tab = some w) :
    ∃ s1, setActiveTab env impl s tab = .ok s1
      ∧ wmGet s1.windowToActiveTab w = some tab
      ∧ s1.tabs = s.tabs ∧ s1.tabToWindow = s.tabToWindow ∧ s1.windows = s.windows
      ∧ (getActiveTabFromWebContents env s tab ≠ some tab →
          s1.events = s.events ++ [.activeTabChanged tab w]
          ∧ (impl.selectTab = true →
              s1.implSelectTabCalls = s.implSelectTabCalls ++ [(tab, w)])
          ∧ (impl.selectTab = false →
              s1.implSelectTabCalls = s.implSelectTabCalls))
      ∧ (getActiveTabFromWebContents env s tab = some tab →
          s1.events = s.events ∧ s1.implSelectTabCalls = s.implSelectTabCalls) := by
  cases hemit : (getActiveTabFromWebContents env s tab != some tab) with
  | true =>
    have hne : getActiveTabFromWebContents env s tab ≠ some tab := by
      simpa using hemit
    cases hsel : impl.selectTab with
    | true =>
      refine ⟨{ s with
          windowToActiveTab := wmSet s.windowToActiveTab w tab,
          events := s.events ++ [.activeTabChanged tab w],
          implSelectTabCalls := s.implSelectTabCalls ++ [(tab, w)] },
        ?_, ?_, rfl, rfl, rfl, ?_, ?_⟩
      · simp [setActiveTab, hw, hemit, hsel]
      · exact wmGet_wmSet_self _ _ _
      · exact fun _ => ⟨rfl, fun _ => rfl, fun hf => by simp [hsel] at hf⟩
      · exact fun h => absurd h hne
    | false =>
      refine ⟨{ s with
          windowToActiveTab := wmSet s.windowToActiveTab w tab,
          events := s.events ++ [.activeTabChanged tab w] },
        ?_, ?_, rfl, rfl, rfl, ?_, ?_⟩
      · simp [setActiveTab, hw, hemit, hsel]
      · exact wmGet_wmSet_self _ _ _
      · exact fun _ => ⟨rfl, fun hf => by simp [hsel] at hf, fun _ => rfl⟩
      · exact fun h => absurd h hne
  | false =>
    have heq : getActiveTabFromWebContents env s tab = some tab := by
      simpa using hemit
    refine ⟨{ s with
        windowToActiveTab := wmSet s.windowToActiveTab w tab },
      ?_, ?_, rfl, rfl, rfl, ?_, ?_⟩
    · simp [setActiveTab, hw, hemit]
    · exact wmGet_wmSet_self _ _ _
    · exact fun h => absurd heq h
    · exact fun _ => ⟨rfl, rfl⟩

/-- Claim C8: setActiveTab fails with NoParentWindow for a tab without an
owning window in the tab-to-window relation; otherwise it points the owning
window at the tab and emits active-tab-changed(tab, window), invoking the
external select hook exactly when configured, if and only if the active tab
actually changed; a second setActiveTab on the same live tab emits nothing
further. -/
theorem setActiveTab_spec (env : StoreEnv) (impl : StoreImpl) (s : ExtensionStore)
    (tab : Nat) :
    (wmGet s.tabToWindow tab = none →
      setActiveTab env impl s tab = .error .noParentWindow)
    ∧ (∀ w, wmGet s.tabToWindow tab = some w →
        ∃ s1, setActiveTab env impl s tab = .ok s1
          ∧ wmGet s1.windowToActiveTab w = some tab
          ∧ (getActiveTabFromWebContents env s tab ≠ some tab →
              s1.events = s.events ++ [.activeTabChanged tab w]
              ∧ (impl.selectTab = true →
                  s1.implSelectTabCalls = s.implSelectTabCalls ++ [(tab, w)]))
          ∧ (getActiveTabFromWebContents env s tab = some tab →
              s1.events = s.events ∧ s1.implSelectTabCalls = s.implSelectTabCalls))
    ∧ (∀ w s1, wmGet s.tabToWindow tab = some w →
        env.winDestroyed w = false → env.tabDestroyed tab = false →
        setActiveTab env impl s tab = .ok s1 →
        ∃ s2, setActiveTab env impl s1 tab = .ok s2
          ∧ s2.events = s1.events
          ∧ s2.implSelectTabCalls = s1.implSelectTabCalls) := by
  refine ⟨?_, ?_, ?_⟩
  · intro hnone
    simp [setActiveTab, hnone]
  · intro w hw
    obtain ⟨s1, heq, hact, _, _, _, hemit, hnoemit⟩ :=
      setActiveTab_ok env impl s tab w hw
    exact ⟨s1, heq, hact, fun h => ⟨(hemit h).1, (hemit h).2.1⟩, hnoemit⟩
  · intro w s1 hw hwd htd hok
    obtain ⟨s1', heq, hact, htabs, ht2w, hwins, hemit, hnoemit⟩ :=
      setActiveTab_ok env impl s tab w hw
    rw [heq] at hok
    have hs : s1' = s1 := Except.ok.inj hok
    subst hs
    have hw1 : wmGet s1'.tabToWindow tab = some w := by rw [ht2w]; exact hw
    have hprev : getActiveTabFromWebContents env s1' tab = some tab := by
      simp [getActiveTabFromWebContents, getActiveTabFromWindow, hw1,
        Option.orElse, hwd, hact, htd]
    obtain ⟨s2, heq2, _, _, _, _, _, hnoemit2⟩ :=
      setActiveTab_ok env impl s1' tab w hw1
    exact ⟨s2, heq2, (hnoemit2 hprev).1, (hnoemit2 hprev).2⟩

/-- Witness for C8: after the first activation of the sole tab of window 1,
a second setActiveTab for the same tab returns without emitting again. -/
theorem setActiveTab_spec_witness :
    ∃ s2, setActiveTab envC implNone
        { emptyStore with
          tabs := [1], windows := [1], tabToWindow := [(1, 1)],
          windowToActiveTab := [(1, 1)],
          events := [.activeTabChanged 1 1] } 1 = .ok s2
      ∧ s2.events = [StoreEvent.activeTabChanged 1 1]
      ∧ s2.implSelectTabCalls = [] := by
  exact (setActiveTab_spec envC implNone
      { emptyStore with tabs := [1], windows := [1], tabToWindow := [(1, 1)] }
      1).2.2 1
    { emptyStore with
      tabs := [1], windows := [1], tabToWindow := [(1, 1)],
      windowToActiveTab := [(1, 1)], events := [.activeTabChanged 1 1] }
    rfl rfl rfl rfl

end CrxStore

namespace CrxStore

/-- Counterexample for C9 as stated: with a createWindow adapter returning
the number 7 — not an object, so not a live content-surface handle with an
owning window — createWindow succeeds instead of failing with
InvalidAdapterResult: the createWindow path performs no validation of the
adapter result. -/
theorem createWindow_no_validation_counterexample :
    createWindow { implNone with createWindow := some (fun _ => .num 7) }
        emptyStore { url := none } = .ok (emptyStore, .num 7)
    ∧ (JSVal.num 7).isObject = false := ⟨rfl, rfl⟩

/-- Claim C9 (amended): createTab and createWindow fail with NotImplemented
when the corresponding adapter function is missing.  createTab validates the
adapter result — it must be an array whose first element is an object with a
live WebContents id and whose second element is an object — failing with
InvalidAdapterResult otherwise, and on a valid result calls addTab with the
returned pair; createWindow performs no such validation: whenever its
adapter is configured it accepts the result as is, handing a window object
to addWindow. -/
theorem adapter_create_spec (env : StoreEnv) (impl : StoreImpl)
    (s : ExtensionStore) (details : CreateProperties) (dd : CreateData) :
    (impl.createTab = none → createTab env impl s details = .error .notImplemented)
    ∧ (impl.createWindow = none →
        createWindow impl s dd = .error .notImplemented)
    ∧ (∀ f v, impl.createTab = some f →
        f (adapterCreateTabInput s details) = .value v →
        createTab env impl s details = .error .invalidAdapterResult)
    ∧ (∀ f elems, impl.createTab = some f →
        f (adapterCreateTabInput s details) = .tuple elems →
        (((elems.getD 0 .undef).isObject &&
            (match (elems.getD 0 .undef).idField with
              | some i => env.liveWebContents i
              | none => false) &&
            (elems.getD 1 .undef).isObject) = false) →
        createTab env impl s details = .error .invalidAdapterResult)
    ∧ (∀ f ti wi, impl.createTab = some f →
        f (adapterCreateTabInput s details) = .tuple [.obj ti, .obj wi] →
        env.liveWebContents ti = true →
        createTab env impl s details =
          (addTab env impl s ti wi).map (fun s1 => (s1, JSVal.obj ti)))
    ∧ (∀ g w, impl.createWindow = some g → g dd = .obj w →
        createWindow impl s dd = .ok (addWindow s w, .obj w)) := by
  refine ⟨?_, ?_, ?_, ?_, ?_, ?_⟩
  · intro h
    simp [createTab, h]
  · intro h
    simp [createWindow, h]
  · intro f v hf hv
    simp [createTab, hf, handleCreateTabResult, hv]
  · intro f elems hf helems hbad
    simp only [List.getD_eq_getElem?_getD] at hbad
    cases h1 : ((elems[0]?).getD JSVal.undef).isObject <;>
      cases h3 : ((elems[1]?).getD JSVal.undef).isObject <;>
      cases h2 : (match ((elems[0]?).getD JSVal.undef).idField with
        | some i => env.liveWebContents i
        | none => false) <;>
      simp [createTab, hf, handleCreateTabResult, helems, h1, h2, h3] <;>
      simp [h1, h2, h3] at hbad
  · intro f ti wi hf htuple hlive
    cases haddtab : addTab env impl s ti wi <;>
      simp [createTab, hf, handleCreateTabResult, htuple, JSVal.isObject,
        JSVal.idField, hlive, haddtab, bind, Except.bind, Except.map, pure,
        Except.pure]
  · intro g w hg hw
    simp [createWindow, hg, hw, JSVal.idField]

/-- Witness for C9 (amended): with no adapter configured, createTab fails
with NotImplemented. -/
theorem adapter_create_spec_witness :
    createTab envC implNone emptyStore { url := none, windowId := none } =
      .error .notImplemented := by
  exact (adapter_create_spec envC implNone emptyStore
    { url := none, windowId := none } { url := none }).1 rfl

/-- Claim C10: when createTab is called with no windowId in the details, the
store rewrites the windowId to the last-focused window id before invoking
the adapter, so the adapter receives the current window id as the default
target. -/
theorem createTab_windowId_default (env : StoreEnv) (impl : StoreImpl)
    (s : ExtensionStore) (details : CreateProperties)
    (hw : details.windowId = none) :
    adapterCreateTabInput s details =
      { details with windowId := s.lastFocusedWindowId }
    ∧ (∀ f, impl.createTab = some f →
        createTab env impl s details =
          handleCreateTabResult env impl s
            (f { details with windowId := s.lastFocusedWindowId })) := by
  have h1 : adapterCreateTabInput s details =
      { details with windowId := s.lastFocusedWindowId } := by
    simp [adapterCreateTabInput, windowIdFalsy, hw]
  refine ⟨h1, ?_⟩
  intro f hf
  rw [createTab, hf, h1]

/-- Witness for C10: with window 3 last focused and no windowId given, the
adapter input carries windowId 3. -/
theorem createTab_windowId_default_witness :
    adapterCreateTabInput { emptyStore with lastFocusedWindowId := some 3 }
        { url := none, windowId := none } =
      { url := none, windowId := some 3 } := by
  exact (createTab_windowId_default envC implNone
    { emptyStore with lastFocusedWindowId := some 3 }
    { url := none, windowId := none } rfl).1

end CrxStore
